import Mathlib

/-!
Verification of the ANP News API feeding service
(`src/server/anp/io/feeding_services/anp_news_api.py`).

The Python service is embedded shallowly:

* Python scalar values that flow through dynamic fields (item ids, checkpoint
  values) are modelled by `PyVal` (`None`, strings, ints) together with Python
  truthiness `pvTruthy`.
* Every HTTP GET made through `HTTPFeedingServiceBase.get_url` either raises a
  transport error or yields a JSON body `{hasError, data}`; this is the
  `FetchResult` type.  The remote API and the feed parser together form the
  environment `Env` against which a run is evaluated.
* Raising an exception is modelled by `Except`; the in-place mutation of the
  `update` dict (which survives a raised exception in the Python caller) is
  modelled by returning the final `SourcesMap` alongside the `Except` value.
-/

/-- Python scalar values relevant to the service: `None`, strings and ints. -/
inductive PyVal where
  | none : PyVal
  | str : String → PyVal
  | int : Int → PyVal
deriving DecidableEq, Repr

/-- Python truthiness for `PyVal`: `None`, `0` and `""` are falsy. -/
def pvTruthy : PyVal → Bool
  | PyVal.none => false
  | PyVal.str s => !(s == "")
  | PyVal.int n => !(n == 0)

/-- Python `str()` rendering, used by `str.format` when a `PyVal` is spliced
into a URL. -/
def PyVal.toStr : PyVal → String
  | PyVal.none => "None"
  | PyVal.str s => s
  | PyVal.int n => toString n

/-- Python `str.lower()` (ASCII letters, as in `Char.toLower`). -/
def pyLower (s : String) : String := ⟨s.data.map Char.toLower⟩

/-- Python whitespace as stripped by `str.strip()`. -/
def pyIsSpace (c : Char) : Bool :=
  c == ' ' || c == '\t' || c == '\n' || c == '\r' || c == '\x0b' || c == '\x0c'

/-- Python `str.strip()`: drop whitespace from both ends. -/
def pyStrip (s : String) : String :=
  ⟨((s.data.dropWhile pyIsSpace).reverse.dropWhile pyIsSpace).reverse⟩

/-- Helper for `pySplitComma`, accumulating the current field reversed. -/
def splitCommaAux : List Char → List Char → List String
  | [], cur => [⟨cur.reverse⟩]
  | c :: rest, cur =>
      if c == ',' then ⟨cur.reverse⟩ :: splitCommaAux rest []
      else splitCommaAux rest (c :: cur)

/-- Python `str.split(',')`: split on every comma, never empty
(`"".split(',') == ['']`). -/
def pySplitComma (s : String) : List String := splitCommaAux s.data []

/-- A source as listed by the `sources` endpoint: `{id, title}`. -/
structure Source where
  id : PyVal
  title : String
deriving DecidableEq, Repr

/-- An item listing entry: `{id, kind}`. -/
structure ItemRef where
  id : PyVal
  kind : String
deriving DecidableEq, Repr

/-- Body of the items listing endpoint: a dict with an `items` key. -/
structure ItemsData where
  items : List ItemRef
deriving DecidableEq, Repr

/-- An item detail payload: its `id` and the truthiness of `hasMedia`. -/
structure ItemDetail where
  id : PyVal
  hasMedia : Bool
deriving DecidableEq, Repr

/-- An item detail as returned by `_fetch_item_details`: the detail payload
with the optional `media_link` key added. -/
structure ResolvedItem where
  detail : ItemDetail
  media_link : Option String
deriving DecidableEq, Repr

/-- A media rendition: `kind`, `mimeType` and `id` fields, each possibly
absent (`rend.get(...)` in python). An absent `id` is `PyVal.none`. -/
structure Rendition where
  kind : Option String
  mimeType : Option String
  id : PyVal
deriving DecidableEq, Repr

/-- An API error envelope: `content.data.errorCode` / `content.data.description`
when `content.hasError` is set. -/
structure ErrorEnvelope where
  errorCode : String
  description : String
deriving DecidableEq, Repr

/-- Outcome of one raw HTTP GET: either the transport layer raised, or a JSON
body `{hasError, <error envelope>, data}` was returned. -/
inductive FetchResult (α : Type) where
  | transportError : String → FetchResult α
  | response : Bool → ErrorEnvelope → α → FetchResult α

/-- Errors raised by the service: transport errors from the HTTP base class
and `IngestApiError.apiGeneralError` built from the API error envelope. -/
inductive IngestError where
  | transport : String → IngestError
  | apiGeneralError : String → IngestError
deriving DecidableEq, Repr

/-- A per-source checkpoint entry as stored under `private.sources[sid]`:
`{title, last_item_id}`. -/
structure SourceEntry where
  title : String
  last_item_id : PyVal
deriving DecidableEq, Repr

/-- The `private.sources` dict of the provider / update documents, as an
insertion-ordered association list (Python dict semantics). -/
abbrev SourcesMap := List (PyVal × SourceEntry)

/-- Python dict lookup `m.get(k)`. -/
def mapGet : SourcesMap → PyVal → Option SourceEntry
  | [], _ => Option.none
  | (k0, v0) :: rest, k => if k0 = k then some v0 else mapGet rest k

/-- Python dict assignment `m[k] = v`: replaces in place, else appends. -/
def mapSet : SourcesMap → PyVal → SourceEntry → SourcesMap
  | [], k, v => [(k, v)]
  | (k0, v0) :: rest, k, v =>
      if k0 = k then (k, v) :: rest else (k0, v0) :: mapSet rest k v

namespace ANPNewsApiFeedingService

def HTTP_SOURCES_URL : String := "https://newsapi.anp.nl/services/sources"

def HTTP_ITEMS_URL (source_id : PyVal) : String :=
  "https://newsapi.anp.nl/services/sources/" ++ source_id.toStr ++ "/items"

def HTTP_ITEM_DETAILS_URL (source_id item_id : PyVal) : String :=
  "https://newsapi.anp.nl/services/sources/" ++ source_id.toStr
    ++ "/items/" ++ item_id.toStr

def HTTP_ITEM_MEDIA_LIST_URL (source_id item_id : PyVal) : String :=
  "https://newsapi.anp.nl/services/sources/" ++ source_id.toStr
    ++ "/items/" ++ item_id.toStr ++ "/media"

def HTTP_ITEM_MEDIA_DETAILS_URL (source_id item_id media_id : PyVal) : String :=
  "https://newsapi.anp.nl/services/sources/" ++ source_id.toStr
    ++ "/items/" ++ item_id.toStr ++ "/media/" ++ media_id.toStr

def ALLOWED_ITEM_KINDS : List String := ["TEXTARTICLE"]

def ALLOWED_MEDIA_KINDS : List String := ["imgMid"]

def ALLOWED_MEDIA_MIMETYPES : List String := ["image/jpeg"]

/-- The message of the `IngestApiError.apiGeneralError` raised by `get_url`
when the body has `hasError` set:
`"Error in GET: <url>. ErrorCode: <code>. Description: <desc>"` with each
field single-quoted, exactly as built by `str.format` in the source. -/
def apiErrorMsg (url : String) (e : ErrorEnvelope) : String :=
  "Error in GET: \x27" ++ url ++ "\x27. ErrorCode: \x27" ++ e.errorCode
    ++ "\x27. Description: \x27" ++ e.description ++ "\x27"

/-- The service's `get_url`: performs the raw GET (whose outcome `fr` the
environment supplies), then validates the envelope — a body with
`hasError` raises `apiGeneralError` with `apiErrorMsg`, otherwise
`content.data` is returned. -/
def get_url {α : Type} (url : String) (fr : FetchResult α) : Except IngestError α :=
  match fr with
  | FetchResult.transportError m => Except.error (IngestError.transport m)
  | FetchResult.response hasError e d =>
      if hasError then Except.error (IngestError.apiGeneralError (apiErrorMsg url e))
      else Except.ok d

end ANPNewsApiFeedingService

/- `Env` is declared after the service namespace is first closed so that the
service functions can be stated over it; the remaining service definitions
reopen the namespace below. -/

/-- The environment of one run: the remote API's behaviour for each endpoint
(keyed by the request actually made), together with the feed parser obtained
from `get_feed_parser`, producing parsed articles of some type `π`.
`items` is keyed by the source id and the optional `toItem` request
parameter, so whether the cursor was sent is observable. -/
structure Env (π : Type) where
  sources : FetchResult (List Source)
  items : PyVal → Option PyVal → FetchResult ItemsData
  itemDetails : PyVal → PyVal → FetchResult ItemDetail
  mediaList : PyVal → PyVal → FetchResult (List Rendition)
  parse : ResolvedItem → π

namespace ANPNewsApiFeedingService

variable {π : Type}

/-- Test of `rend.get('kind') in self.ALLOWED_MEDIA_KINDS and
rend.get('mimeType') in self.ALLOWED_MEDIA_MIMETYPES` for one rendition. -/
def renditionMatches (r : Rendition) : Bool :=
  (match r.kind with
   | some k => decide (k ∈ ALLOWED_MEDIA_KINDS)
   | Option.none => false)
  && (match r.mimeType with
      | some m => decide (m ∈ ALLOWED_MEDIA_MIMETYPES)
      | Option.none => false)

/-- The `for rend in media_renditions` loop of `_fetch_media_link`: first
rendition passing `renditionMatches` decides the outcome — a URL if its
`id` is truthy, `None` otherwise; falling off the end yields `None`. -/
def mediaLinkScan (source_id item_id : PyVal) : List Rendition → Option String
  | [] => Option.none
  | r :: rest =>
      if renditionMatches r then
        if pvTruthy r.id then
          some (HTTP_ITEM_MEDIA_DETAILS_URL source_id item_id r.id)
        else Option.none
      else mediaLinkScan source_id item_id rest

/-- The service's `_fetch_media_link`: fetch the rendition list and scan it. -/
def _fetch_media_link (env : Env π) (source_id item_id : PyVal) :
    Except IngestError (Option String) :=
  match get_url (HTTP_ITEM_MEDIA_LIST_URL source_id item_id)
      (env.mediaList source_id item_id) with
  | Except.error e => Except.error e
  | Except.ok rends => Except.ok (mediaLinkScan source_id item_id rends)

/-- The service's `_fetch_item_details`: fetch the detail payload; when it
has `hasMedia`, resolve a media link and attach it if truthy. -/
def _fetch_item_details (env : Env π) (source_id item_id : PyVal) :
    Except IngestError ResolvedItem :=
  match get_url (HTTP_ITEM_DETAILS_URL source_id item_id)
      (env.itemDetails source_id item_id) with
  | Except.error e => Except.error e
  | Except.ok d =>
      if d.hasMedia then
        match _fetch_media_link env source_id item_id with
        | Except.error e => Except.error e
        | Except.ok link =>
            match link with
            | some l =>
                if l == "" then Except.ok ⟨d, Option.none⟩
                else Except.ok ⟨d, some l⟩
            | Option.none => Except.ok ⟨d, Option.none⟩
      else Except.ok ⟨d, Option.none⟩

/-- The `params` sent by `_fetch_items`: `{'toItem': to_item}` only when
`to_item` is truthy (`if to_item:` in the source). -/
def itemsRequestParam (to_item : PyVal) : Option PyVal :=
  if pvTruthy to_item then some to_item else Option.none

/-- The service's `_fetch_items`: fetch the listing for `source_id`
(optionally bounded by `toItem`) and reverse it in place. -/
def _fetch_items (env : Env π) (source_id : PyVal) (to_item : PyVal) :
    Except IngestError (List ItemRef) :=
  match get_url (HTTP_ITEMS_URL source_id)
      (env.items source_id (itemsRequestParam to_item)) with
  | Except.error e => Except.error e
  | Except.ok d => Except.ok d.items.reverse

/-- One entry normalisation applied to the configured `source_titles`:
the inner comprehension applies `.lower().strip()`, the outer one applies
`.lower().strip()` again. -/
def normConfTitle (t : String) : String :=
  pyStrip (pyLower (pyStrip (pyLower t)))

/-- The comprehension in `_fetch_sources`: keep the catalog sources whose
lower-cased title (not stripped) occurs among the normalised configured
titles; catalog order is preserved. -/
def filterSources (srcs : List Source) (confTitles : List String) : List Source :=
  srcs.filter (fun src => decide (pyLower src.title ∈ confTitles.map normConfTitle))

/-- The service's `_fetch_sources`: fetch the catalog and keep the sources
whose title matches the comma-separated `source_titles` config. -/
def _fetch_sources (env : Env π) (source_titles : String) :
    Except IngestError (List Source) :=
  match get_url HTTP_SOURCES_URL env.sources with
  | Except.error e => Except.error e
  | Except.ok srcs => Except.ok (filterSources srcs (pySplitComma source_titles))

/-- The stored checkpoint read in `_update`:
`provider.get('private', {}).get('sources', {}).get(sid, {}).get('last_item_id')`,
which is `None` whenever any level is absent. -/
def providerCheckpoint (provider : SourcesMap) (sid : PyVal) : PyVal :=
  match mapGet provider sid with
  | some e => e.last_item_id
  | Option.none => PyVal.none

/-- The inner `for item in [i for i in source['items'] if i['kind'] in
self.ALLOWED_ITEM_KINDS]` loop of `_update`, over the already-filtered list:
each iteration fetches the item detail (propagating a raised error, with the
`update` map mutations made so far surviving), writes
`update['private']['sources'][source['id']] = {'title': ..., 'last_item_id':
item_details['id']}` and appends the parsed article. -/
def processItems (env : Env π) (src : Source) :
    List ItemRef → SourcesMap → List π → SourcesMap × Except IngestError (List π)
  | [], upd, acc => (upd, Except.ok acc)
  | item :: rest, upd, acc =>
      match _fetch_item_details env src.id item.id with
      | Except.error e => (upd, Except.error e)
      | Except.ok details =>
          processItems env src rest
            (mapSet upd src.id ⟨src.title, details.detail.id⟩)
            (acc ++ [env.parse details])

/-- One iteration of the `for source in sources` loop of `_update`: fetch the
item listing bounded by the stored checkpoint, then run the item loop over
the kind-filtered listing. -/
def processSource (env : Env π) (provider : SourcesMap) (src : Source)
    (upd : SourcesMap) (acc : List π) : SourcesMap × Except IngestError (List π) :=
  match _fetch_items env src.id (providerCheckpoint provider src.id) with
  | Except.error e => (upd, Except.error e)
  | Except.ok items =>
      processItems env src
        (items.filter (fun i => decide (i.kind ∈ ALLOWED_ITEM_KINDS))) upd acc

/-- The `for source in sources` loop of `_update`. -/
def processSources (env : Env π) (provider : SourcesMap) :
    List Source → SourcesMap → List π → SourcesMap × Except IngestError (List π)
  | [], upd, acc => (upd, Except.ok acc)
  | src :: rest, upd, acc =>
      match processSource env provider src upd acc with
      | (upd1, Except.error e) => (upd1, Except.error e)
      | (upd1, Except.ok acc1) => processSources env provider rest upd1 acc1

/-- The service's `_update`.  `provider` is the stored `private.sources` map
of the ingest provider and `upd` the (normally empty) `private.sources` map
of the `update` document passed in.  The first component is the state of the
`update` map when `_update` terminates — the Python dict is mutated in place,
so these writes survive even when an exception propagates; the second is the
returned `[parsed_items]` or the raised error. -/
def _update (env : Env π) (provider : SourcesMap) (upd : SourcesMap)
    (source_titles : String) : SourcesMap × Except IngestError (List (List π)) :=
  match _fetch_sources env source_titles with
  | Except.error e => (upd, Except.error e)
  | Except.ok srcs =>
      match processSources env provider srcs upd [] with
      | (upd1, Except.error e) => (upd1, Except.error e)
      | (upd1, Except.ok parsed_items) => (upd1, Except.ok [parsed_items])

/-! Proof-layer definitions: predicates on environments and explicit
descriptions of the loop state, used to state the claims. -/

/-- The detail fetch for item `i` of source `src` succeeds. -/
def FetchOk (env : Env π) (src : Source) (i : ItemRef) : Prop :=
  ∃ d, _fetch_item_details env src.id i.id = Except.ok d

/-- The detail fetch for item `i` succeeds and the payload carries the
requested item id (a well-formed upstream answer). -/
def FetchOkWf (env : Env π) (src : Source) (i : ItemRef) : Prop :=
  ∃ d, _fetch_item_details env src.id i.id = Except.ok d ∧ d.detail.id = i.id

/-- The state of the `update` map after the item loop has consumed the items
`l` for source `src`: one checkpoint write per successfully detailed item. -/
def updAfter (env : Env π) (src : Source) (upd : SourcesMap) (l : List ItemRef) :
    SourcesMap :=
  l.foldl (fun u i =>
    match _fetch_item_details env src.id i.id with
    | Except.ok d => mapSet u src.id ⟨src.title, d.detail.id⟩
    | Except.error _ => u) upd

/-- The parsed articles appended by the item loop while consuming `l`. -/
def parsedAcc (env : Env π) (src : Source) (l : List ItemRef) : List π :=
  l.filterMap (fun i =>
    match _fetch_item_details env src.id i.id with
    | Except.ok d => some (env.parse d)
    | Except.error _ => Option.none)

/-- Every successful item-detail payload of `env` carries the item id it was
requested for. -/
def DetailsWellformed (env : Env π) : Prop :=
  ∀ sid iid ee d, env.itemDetails sid iid = FetchResult.response false ee d →
    d.id = iid

/-- The upstream honours the `toItem` cursor with respect to the strict
order `R`: every id listed for a cursored request is `R`-above the cursor,
and is truthy. -/
def CursorRespects (R : PyVal → PyVal → Prop) (env : Env π) : Prop :=
  ∀ sid c ee d, env.items sid (some c) = FetchResult.response false ee d →
    ∀ i, i ∈ d.items → R c i.id ∧ pvTruthy i.id = true

/-- The keys of a `SourcesMap` are pairwise distinct (true of every Python
dict, and preserved by the embedding's `mapSet`). -/
def NodupKeys (m : SourcesMap) : Prop := (m.map Prod.fst).Nodup

/-- Modelled from the spec: the checkpoint store persists the returned
update map over the stored per-source state (`this core returns the updated
map for the caller to persist`); each returned entry overwrites the stored
entry for its source id. -/
def mergeUpd (prov u : SourcesMap) : SourcesMap :=
  u.foldl (fun p kv => mapSet p kv.1 kv.2) prov

/-- A sequence of sync runs: each run reads the stored map, executes
`_update` with a fresh `update` document, and persists the result. -/
def runMany (conf : String) : SourcesMap → List (Env π) → SourcesMap
  | prov, [] => prov
  | prov, e :: rest => runMany conf (mergeUpd prov (_update e prov [] conf).1) rest

/-- Modelled from the spec: the source filter as the specification words it —
both the catalog title and the allow-list entry are lower-cased AND trimmed
before the exact-equality comparison. -/
def specFilterSources (srcs : List Source) (confTitles : List String) :
    List Source :=
  srcs.filter (fun src =>
    decide (pyStrip (pyLower src.title) ∈
      confTitles.map (fun t => pyStrip (pyLower t))))

/-! Concrete environments used by the scenario conjuncts, the
counterexamples and the witnesses. -/

/-- A neutral error envelope, carried by successful responses. -/
def okEnvelope : ErrorEnvelope := ⟨"", ""⟩

/-- The source of the end-to-end scenario: `{id: 1, title: "ANP 101"}`. -/
def scnSource : Source := ⟨PyVal.int 1, "ANP 101"⟩

/-- The end-to-end scenario environment: checkpoint `100`, upstream listing
(reverse-chronological) `[103, 102, 101]` with `102` of kind `PHOTO`.  The
detail endpoint of item `102` is a transport error, so the run could only
succeed if `102` is never detailed. -/
def scnEnv : Env ResolvedItem where
  sources := FetchResult.response false okEnvelope [scnSource]
  items := fun sid p =>
    if sid = PyVal.int 1 ∧ p = some (PyVal.int 100) then
      FetchResult.response false okEnvelope
        ⟨[⟨PyVal.int 103, "TEXTARTICLE"⟩, ⟨PyVal.int 102, "PHOTO"⟩,
          ⟨PyVal.int 101, "TEXTARTICLE"⟩]⟩
    else FetchResult.transportError "unexpected items request"
  itemDetails := fun sid iid =>
    if sid = PyVal.int 1 ∧ iid = PyVal.int 101 then
      FetchResult.response false okEnvelope ⟨PyVal.int 101, false⟩
    else if sid = PyVal.int 1 ∧ iid = PyVal.int 103 then
      FetchResult.response false okEnvelope ⟨PyVal.int 103, false⟩
    else FetchResult.transportError "unexpected detail request"
  mediaList := fun _ _ => FetchResult.transportError "unexpected media request"
  parse := fun r => r

/-- The provider state of the end-to-end scenario: source `1` was last
synced up to item `100`. -/
def scnProvider : SourcesMap := [(PyVal.int 1, ⟨"ANP 101", PyVal.int 100⟩)]

/-- A failing-run environment: no stored checkpoint, listing `[103, 101]`
(reverse-chronological), item `101` resolves, the detail fetch of `103`
fails with a transport error. -/
def failEnv : Env ResolvedItem where
  sources := FetchResult.response false okEnvelope [scnSource]
  items := fun sid p =>
    if sid = PyVal.int 1 ∧ p = Option.none then
      FetchResult.response false okEnvelope
        ⟨[⟨PyVal.int 103, "TEXTARTICLE"⟩, ⟨PyVal.int 101, "TEXTARTICLE"⟩]⟩
    else FetchResult.transportError "unexpected items request"
  itemDetails := fun sid iid =>
    if sid = PyVal.int 1 ∧ iid = PyVal.int 101 then
      FetchResult.response false okEnvelope ⟨PyVal.int 101, false⟩
    else FetchResult.transportError "boom"
  mediaList := fun _ _ => FetchResult.transportError "unexpected media request"
  parse := fun r => r

/-- A quiet environment: every listing is empty, every detail payload echoes
the requested id. -/
def idleEnv : Env ResolvedItem where
  sources := FetchResult.response false okEnvelope [scnSource]
  items := fun _ _ => FetchResult.response false okEnvelope ⟨[]⟩
  itemDetails := fun _ iid => FetchResult.response false okEnvelope ⟨iid, false⟩
  mediaList := fun _ _ => FetchResult.transportError "unexpected media request"
  parse := fun r => r

/-- An environment carrying the two-rendition media list of the resolver
scenario: a bare `imgSmall` followed by `imgMid`/`image/jpeg` with id `42`. -/
def rendEnv : Env ResolvedItem where
  sources := FetchResult.response false okEnvelope []
  items := fun _ _ => FetchResult.response false okEnvelope ⟨[]⟩
  itemDetails := fun _ iid => FetchResult.response false okEnvelope ⟨iid, true⟩
  mediaList := fun _ _ =>
    FetchResult.response false okEnvelope
      [⟨some "imgSmall", Option.none, PyVal.none⟩,
       ⟨some "imgMid", some "image/jpeg", PyVal.int 42⟩]
  parse := fun r => r

/-- An environment whose details flag media but whose rendition list has no
matching rendition, so the resolver yields no link. -/
def noMatchEnv : Env ResolvedItem where
  sources := FetchResult.response false okEnvelope []
  items := fun _ _ => FetchResult.response false okEnvelope ⟨[]⟩
  itemDetails := fun _ iid => FetchResult.response false okEnvelope ⟨iid, true⟩
  mediaList := fun _ _ =>
    FetchResult.response false okEnvelope [⟨some "imgSmall", Option.none, PyVal.none⟩]
  parse := fun r => r

/-- Strict comparison of int-valued `PyVal`s (the item ids of the concrete
runs), used to instantiate the order of the monotonicity claim. -/
def pvIntLt (a b : PyVal) : Bool :=
  match a, b with
  | PyVal.int m, PyVal.int n => decide (m < n)
  | _, _ => false

end ANPNewsApiFeedingService

/-! Lemmas about the association-map embedding of Python dicts. -/

namespace ANPNewsApiFeedingService

variable {π1 : Type}

theorem mapGet_mapSet_self (m : SourcesMap) (k : PyVal) (v : SourceEntry) :
    mapGet (mapSet m k v) k = some v := by
  induction m with
  | nil => simp [mapSet, mapGet]
  | cons kv rest ih =>
      obtain ⟨k0, v0⟩ := kv
      by_cases h : k0 = k
      · simp [mapSet, h, mapGet]
      · simp [mapSet, h, mapGet, ih]

theorem mapGet_mapSet_ne (m : SourcesMap) (k k1 : PyVal) (v : SourceEntry)
    (h : k ≠ k1) : mapGet (mapSet m k v) k1 = mapGet m k1 := by
  induction m with
  | nil => simp [mapSet, mapGet, h]
  | cons kv rest ih =>
      obtain ⟨k0, v0⟩ := kv
      by_cases h0 : k0 = k
      · subst h0
        simp [mapSet, mapGet, h]
      · simp [mapSet, h0, mapGet, ih]

theorem mapGet_eq_none_of_not_mem (m : SourcesMap) (k : PyVal)
    (h : k ∉ m.map Prod.fst) : mapGet m k = Option.none := by
  induction m with
  | nil => simp [mapGet]
  | cons kv rest ih =>
      obtain ⟨k0, v0⟩ := kv
      simp only [List.map_cons, List.mem_cons] at h
      push_neg at h
      have hne : ¬ k0 = k := fun hh => h.1 hh.symm
      simp [mapGet, hne, ih h.2]

theorem mapSet_keys (m : SourcesMap) (k : PyVal) (v : SourceEntry) :
    (mapSet m k v).map Prod.fst =
      if k ∈ m.map Prod.fst then m.map Prod.fst else m.map Prod.fst ++ [k] := by
  induction m with
  | nil => simp [mapSet]
  | cons kv rest ih =>
      obtain ⟨k0, v0⟩ := kv
      by_cases h0 : k0 = k
      · subst h0
        simp [mapSet]
      · have hne : ¬ k = k0 := fun hh => h0 hh.symm
        by_cases hmem : k ∈ rest.map Prod.fst
        · simp [mapSet, h0, ih, hmem, hne]
        · simp [mapSet, h0, ih, hmem, hne]

theorem nodupKeys_mapSet (m : SourcesMap) (k : PyVal) (v : SourceEntry)
    (h : NodupKeys m) : NodupKeys (mapSet m k v) := by
  unfold NodupKeys at h ⊢
  rw [mapSet_keys]
  by_cases hmem : k ∈ m.map Prod.fst
  · simpa [hmem] using h
  · simp only [hmem, if_false]
    refine List.Nodup.append h (List.nodup_singleton k) ?_
    intro a ha hb
    rw [List.mem_singleton] at hb
    subst hb
    exact hmem ha

end ANPNewsApiFeedingService

/-! Lemmas about the fetch helpers and the item loop. -/

namespace ANPNewsApiFeedingService

variable {π : Type}

/-- A successful `_fetch_item_details` comes from a successful detail
response, and returns that payload as the `detail` component. -/
theorem fetch_item_details_ok_inv (env : Env π) (sid iid : PyVal)
    (rd : ResolvedItem) (h : _fetch_item_details env sid iid = Except.ok rd) :
    ∃ ee dd, env.itemDetails sid iid = FetchResult.response false ee dd ∧
      rd.detail = dd := by
  unfold _fetch_item_details at h
  cases hd : env.itemDetails sid iid with
  | transportError m => rw [hd] at h; simp [get_url] at h
  | response hasErr ee dd =>
      rw [hd] at h
      cases hasErr with
      | true => simp [get_url] at h
      | false =>
          refine ⟨ee, dd, rfl, ?_⟩
          simp only [get_url, if_false, Bool.false_eq_true] at h
          cases hm : dd.hasMedia with
          | false =>
              rw [hm] at h
              simp at h
              rw [← h]
          | true =>
              rw [hm] at h
              simp only [if_true] at h
              cases hml : _fetch_media_link env sid iid with
              | error e => rw [hml] at h; simp at h
              | ok link =>
                  rw [hml] at h
                  cases link with
                  | none => simp at h; rw [← h]
                  | some l =>
                      by_cases hl : l == ""
                      · simp [hl] at h; rw [← h]
                      · simp [hl] at h; rw [← h]

/-- A successful `_fetch_items` comes from a successful listing response for
the request that `itemsRequestParam` determines, and returns its reverse. -/
theorem fetch_items_ok_inv (env : Env π) (sid c : PyVal) (items : List ItemRef)
    (h : _fetch_items env sid c = Except.ok items) :
    ∃ ee d, env.items sid (itemsRequestParam c) = FetchResult.response false ee d ∧
      items = d.items.reverse := by
  unfold _fetch_items at h
  cases hd : env.items sid (itemsRequestParam c) with
  | transportError m => rw [hd] at h; simp [get_url] at h
  | response hasErr ee d =>
      rw [hd] at h
      cases hasErr with
      | true => simp [get_url] at h
      | false =>
          simp only [get_url, if_false, Bool.false_eq_true] at h
          simp at h
          exact ⟨ee, d, rfl, h.symm⟩

theorem updAfter_cons (env : Env π) (src : Source) (upd : SourcesMap)
    (i : ItemRef) (rest : List ItemRef) (d : ResolvedItem)
    (hd : _fetch_item_details env src.id i.id = Except.ok d) :
    updAfter env src upd (i :: rest) =
      updAfter env src (mapSet upd src.id ⟨src.title, d.detail.id⟩) rest := by
  unfold updAfter
  simp [hd]

theorem updAfter_snoc (env : Env π) (src : Source) (upd : SourcesMap)
    (l : List ItemRef) (i : ItemRef) (d : ResolvedItem)
    (hd : _fetch_item_details env src.id i.id = Except.ok d) :
    updAfter env src upd (l ++ [i]) =
      mapSet (updAfter env src upd l) src.id ⟨src.title, d.detail.id⟩ := by
  unfold updAfter
  rw [List.foldl_append]
  simp [hd]

/-- The item loop commutes with splitting off a successfully processed
prefix: after consuming `l₁` it continues on the rest with the checkpoint
writes and parsed articles of `l₁` accumulated. -/
theorem processItems_append_ok (env : Env π) (src : Source)
    (l₁ l₂ : List ItemRef) (upd : SourcesMap) (acc : List π)
    (h : ∀ j ∈ l₁, FetchOk env src j) :
    processItems env src (l₁ ++ l₂) upd acc =
      processItems env src l₂ (updAfter env src upd l₁)
        (acc ++ parsedAcc env src l₁) := by
  induction l₁ generalizing upd acc with
  | nil => simp [updAfter, parsedAcc]
  | cons i rest ih =>
      obtain ⟨d, hd⟩ := h i (List.mem_cons_self i rest)
      have hrest : ∀ j ∈ rest, FetchOk env src j :=
        fun j hj => h j (List.mem_cons_of_mem i hj)
      simp only [List.cons_append, processItems, hd, List.append_eq]
      rw [ih _ _ hrest, updAfter_cons env src upd i rest d hd]
      congr 1
      unfold parsedAcc
      simp [hd]

/-- The item loop on an everywhere-successful list: final map `updAfter`,
result `Except.ok` with the parsed articles appended in order. -/
theorem processItems_ok (env : Env π) (src : Source) (l : List ItemRef)
    (upd : SourcesMap) (acc : List π) (h : ∀ j ∈ l, FetchOk env src j) :
    processItems env src l upd acc =
      (updAfter env src upd l, Except.ok (acc ++ parsedAcc env src l)) := by
  have h0 := processItems_append_ok env src l [] upd acc h
  rw [List.append_nil] at h0
  rw [h0]
  rfl

/-- The item loop on a list whose first failure is at `item`: the error is
returned with exactly the checkpoint writes of the successful prefix. -/
theorem processItems_error_at (env : Env π) (src : Source)
    (l₁ : List ItemRef) (item : ItemRef) (l₂ : List ItemRef)
    (upd : SourcesMap) (acc : List π) (e : IngestError)
    (h1 : ∀ j ∈ l₁, FetchOk env src j)
    (h2 : _fetch_item_details env src.id item.id = Except.error e) :
    processItems env src (l₁ ++ item :: l₂) upd acc =
      (updAfter env src upd l₁, Except.error e) := by
  rw [processItems_append_ok env src l₁ (item :: l₂) upd acc h1]
  simp [processItems, h2]

end ANPNewsApiFeedingService

namespace ANPNewsApiFeedingService

variable {π : Type}

/-- Write-origin invariant of the item loop: the entry at any key is either
untouched, or (at the source's id) the checkpoint of some successfully
detailed item of the consumed list. -/
theorem processItems_writes (env : Env π) (src : Source) (l : List ItemRef)
    (upd : SourcesMap) (acc : List π) (k : PyVal) :
    mapGet (processItems env src l upd acc).1 k = mapGet upd k ∨
      (k = src.id ∧ ∃ i ∈ l, ∃ d,
        _fetch_item_details env src.id i.id = Except.ok d ∧
        mapGet (processItems env src l upd acc).1 k =
          some ⟨src.title, d.detail.id⟩) := by
  induction l generalizing upd acc with
  | nil => exact Or.inl rfl
  | cons i rest ih =>
      cases hf : _fetch_item_details env src.id i.id with
      | error e =>
          simp only [processItems, hf]
          exact Or.inl trivial
      | ok d =>
          simp only [processItems, hf]
          rcases ih (mapSet upd src.id ⟨src.title, d.detail.id⟩)
              (acc ++ [env.parse d]) with h | ⟨hk, i1, hi1, d1, hd1, hres⟩
          · by_cases hks : k = src.id
            · subst hks
              right
              refine ⟨rfl, i, List.mem_cons_self i rest, d, hf, ?_⟩
              rw [h, mapGet_mapSet_self]
            · left
              rw [h, mapGet_mapSet_ne upd src.id k _ (fun hh => hks hh.symm)]
          · exact Or.inr ⟨hk, i1, List.mem_cons_of_mem i hi1, d1, hd1, hres⟩

/-- Write-origin invariant of one source iteration. -/
theorem processSource_writes (env : Env π) (prov : SourcesMap) (src : Source)
    (upd : SourcesMap) (acc : List π) (k : PyVal) :
    mapGet (processSource env prov src upd acc).1 k = mapGet upd k ∨
      (k = src.id ∧ ∃ items,
        _fetch_items env src.id (providerCheckpoint prov src.id) =
          Except.ok items ∧
        ∃ i ∈ items, i.kind ∈ ALLOWED_ITEM_KINDS ∧ ∃ d,
          _fetch_item_details env src.id i.id = Except.ok d ∧
          mapGet (processSource env prov src upd acc).1 k =
            some ⟨src.title, d.detail.id⟩) := by
  cases hf : _fetch_items env src.id (providerCheckpoint prov src.id) with
  | error e =>
      have hunf : processSource env prov src upd acc = (upd, Except.error e) := by
        simp [processSource, hf]
      rw [hunf]
      exact Or.inl rfl
  | ok items =>
      have hunf : processSource env prov src upd acc =
          processItems env src
            (items.filter (fun i => decide (i.kind ∈ ALLOWED_ITEM_KINDS))) upd acc := by
        simp [processSource, hf]
      rw [hunf]
      rcases processItems_writes env src
          (items.filter (fun i => decide (i.kind ∈ ALLOWED_ITEM_KINDS))) upd acc k
        with h | ⟨hk, i, hi, d, hd, hres⟩
      · exact Or.inl h
      · rw [List.mem_filter] at hi
        exact Or.inr ⟨hk, items, rfl, i, hi.1, of_decide_eq_true hi.2, d, hd, hres⟩

/-- Write-origin invariant of the source loop. -/
theorem processSources_writes (env : Env π) (prov : SourcesMap)
    (srcs : List Source) (upd : SourcesMap) (acc : List π) (k : PyVal) :
    mapGet (processSources env prov srcs upd acc).1 k = mapGet upd k ∨
      ∃ src ∈ srcs, k = src.id ∧ ∃ items,
        _fetch_items env src.id (providerCheckpoint prov src.id) =
          Except.ok items ∧
        ∃ i ∈ items, i.kind ∈ ALLOWED_ITEM_KINDS ∧ ∃ d,
          _fetch_item_details env src.id i.id = Except.ok d ∧
          mapGet (processSources env prov srcs upd acc).1 k =
            some ⟨src.title, d.detail.id⟩ := by
  induction srcs generalizing upd acc with
  | nil => exact Or.inl rfl
  | cons src rest ih =>
      rcases hps : processSource env prov src upd acc with ⟨u1, r1⟩
      have hw := processSource_writes env prov src upd acc k
      rw [hps] at hw
      cases r1 with
      | error e =>
          have hres : processSources env prov (src :: rest) upd acc =
              (u1, Except.error e) := by
            simp [processSources, hps]
          rw [hres]
          rcases hw with h | ⟨hk, items, hitems, i, hi, hkind, d, hd, hval⟩
          · exact Or.inl h
          · exact Or.inr ⟨src, List.mem_cons_self src rest, hk, items, hitems,
              i, hi, hkind, d, hd, hval⟩
      | ok acc1 =>
          have hres : processSources env prov (src :: rest) upd acc =
              processSources env prov rest u1 acc1 := by
            simp [processSources, hps]
          rw [hres]
          rcases ih u1 acc1 with h | ⟨src1, hsrc1, hk, items, hitems, i, hi,
              hkind, d, hd, hval⟩
          · rcases hw with h0 | ⟨hk, items, hitems, i, hi, hkind, d, hd, hval⟩
            · exact Or.inl (h.trans h0)
            · exact Or.inr ⟨src, List.mem_cons_self src rest, hk, items, hitems,
                i, hi, hkind, d, hd, h.trans hval⟩
          · exact Or.inr ⟨src1, List.mem_cons_of_mem src hsrc1, hk, items,
              hitems, i, hi, hkind, d, hd, hval⟩

theorem nodupKeys_processItems (env : Env π) (src : Source) (l : List ItemRef)
    (upd : SourcesMap) (acc : List π) (h : NodupKeys upd) :
    NodupKeys (processItems env src l upd acc).1 := by
  induction l generalizing upd acc with
  | nil => exact h
  | cons i rest ih =>
      cases hf : _fetch_item_details env src.id i.id with
      | error e => simpa [processItems, hf] using h
      | ok d =>
          simp only [processItems, hf]
          exact ih _ _ (nodupKeys_mapSet upd src.id _ h)

theorem nodupKeys_processSource (env : Env π) (prov : SourcesMap) (src : Source)
    (upd : SourcesMap) (acc : List π) (h : NodupKeys upd) :
    NodupKeys (processSource env prov src upd acc).1 := by
  cases hf : _fetch_items env src.id (providerCheckpoint prov src.id) with
  | error e =>
      have hunf : processSource env prov src upd acc = (upd, Except.error e) := by
        simp [processSource, hf]
      rw [hunf]
      exact h
  | ok items =>
      have hunf : processSource env prov src upd acc =
          processItems env src
            (items.filter (fun i => decide (i.kind ∈ ALLOWED_ITEM_KINDS))) upd acc := by
        simp [processSource, hf]
      rw [hunf]
      exact nodupKeys_processItems env src _ upd acc h

theorem nodupKeys_processSources (env : Env π) (prov : SourcesMap)
    (srcs : List Source) (upd : SourcesMap) (acc : List π) (h : NodupKeys upd) :
    NodupKeys (processSources env prov srcs upd acc).1 := by
  induction srcs generalizing upd acc with
  | nil => exact h
  | cons src rest ih =>
      rcases hps : processSource env prov src upd acc with ⟨u1, r1⟩
      have h1 : NodupKeys u1 := by
        have := nodupKeys_processSource env prov src upd acc h
        rwa [hps] at this
      cases r1 with
      | error e => simpa [processSources, hps] using h1
      | ok acc1 => simpa [processSources, hps] using ih u1 acc1 h1

theorem nodupKeys_update (env : Env π) (prov upd : SourcesMap) (conf : String)
    (h : NodupKeys upd) : NodupKeys (_update env prov upd conf).1 := by
  cases hs : _fetch_sources env conf with
  | error e =>
      have hunf : _update env prov upd conf = (upd, Except.error e) := by
        simp [_update, hs]
      rw [hunf]
      exact h
  | ok srcs =>
      rcases hps : processSources env prov srcs upd [] with ⟨u1, r1⟩
      have h1 : NodupKeys u1 := by
        have h2 := nodupKeys_processSources env prov srcs upd [] h
        rwa [hps] at h2
      cases r1 with
      | error e =>
          have hunf : _update env prov upd conf = (u1, Except.error e) := by
            simp [_update, hs, hps]
          rw [hunf]
          exact h1
      | ok parsed =>
          have hunf : _update env prov upd conf = (u1, Except.ok [parsed]) := by
            simp [_update, hs, hps]
          rw [hunf]
          exact h1

/-- Looking up the merged store: an entry of the (`NodupKeys`) update map
wins, otherwise the stored entry remains. -/
theorem mapGet_mergeUpd (u : SourcesMap) (prov : SourcesMap) (k : PyVal)
    (h : NodupKeys u) :
    mapGet (mergeUpd prov u) k =
      match mapGet u k with
      | some e => some e
      | Option.none => mapGet prov k := by
  induction u generalizing prov with
  | nil => simp [mergeUpd, mapGet]
  | cons kv rest ih =>
      obtain ⟨k0, v0⟩ := kv
      have h0 : k0 ∉ rest.map Prod.fst := by
        have := h
        unfold NodupKeys at this
        simp only [List.map_cons, List.nodup_cons] at this
        exact this.1
      have hrest : NodupKeys rest := by
        have := h
        unfold NodupKeys at this
        simp only [List.map_cons, List.nodup_cons] at this
        exact this.2
      have hstep : mergeUpd prov ((k0, v0) :: rest) =
          mergeUpd (mapSet prov k0 v0) rest := by
        simp [mergeUpd]
      rw [hstep, ih (mapSet prov k0 v0) hrest]
      by_cases hk : k0 = k
      · subst hk
        rw [mapGet_eq_none_of_not_mem rest k0 h0]
        simp [mapGet, mapGet_mapSet_self]
      · have hg : mapGet ((k0, v0) :: rest) k = mapGet rest k := by
          simp [mapGet, hk]
        rw [hg]
        cases hr : mapGet rest k with
        | some e => rfl
        | none => simp [mapGet_mapSet_ne prov k0 k v0 hk]

end ANPNewsApiFeedingService

namespace ANPNewsApiFeedingService

variable {π : Type}

/-- The source loop over a single source is that source's iteration. -/
theorem processSources_single (env : Env π) (prov : SourcesMap) (src : Source)
    (upd : SourcesMap) (acc : List π) :
    processSources env prov [src] upd acc = processSource env prov src upd acc := by
  rcases hps : processSource env prov src upd acc with ⟨u1, r1⟩
  cases r1 with
  | error e => simp [processSources, hps]
  | ok acc1 => simp [processSources, hps]

/-- The source loop over sources whose listings are all empty touches
nothing and accumulates nothing. -/
theorem processSources_no_items (env : Env π) (prov : SourcesMap)
    (srcs : List Source)
    (h : ∀ src ∈ srcs,
      _fetch_items env src.id (providerCheckpoint prov src.id) = Except.ok []) :
    ∀ upd acc, processSources env prov srcs upd acc = (upd, Except.ok acc) := by
  induction srcs with
  | nil => intro upd acc; rfl
  | cons src rest ih =>
      intro upd acc
      have hsrc := h src (List.mem_cons_self src rest)
      have hps : processSource env prov src upd acc = (upd, Except.ok acc) := by
        simp [processSource, hsrc, processItems]
      simp [processSources, hps,
        ih (fun s hs => h s (List.mem_cons_of_mem src hs)) upd acc]

/-- Write-origin invariant of a whole run: an entry of the final `update`
map either was there before, or records a successfully detailed item taken
from a successfully fetched listing at the stored checkpoint of its key. -/
theorem update_writes (env : Env π) (prov upd : SourcesMap) (conf : String)
    (k : PyVal) :
    mapGet (_update env prov upd conf).1 k = mapGet upd k ∨
      ∃ title items,
        _fetch_items env k (providerCheckpoint prov k) = Except.ok items ∧
        ∃ i ∈ items, i.kind ∈ ALLOWED_ITEM_KINDS ∧ ∃ d,
          _fetch_item_details env k i.id = Except.ok d ∧
          mapGet (_update env prov upd conf).1 k =
            some ⟨title, d.detail.id⟩ := by
  cases hs : _fetch_sources env conf with
  | error e =>
      have hunf : _update env prov upd conf = (upd, Except.error e) := by
        simp [_update, hs]
      rw [hunf]
      exact Or.inl rfl
  | ok srcs =>
      rcases hps : processSources env prov srcs upd [] with ⟨u1, r1⟩
      have hw := processSources_writes env prov srcs upd [] k
      rw [hps] at hw
      have hu1 : (_update env prov upd conf).1 = u1 := by
        cases r1 with
        | error e => simp [_update, hs, hps]
        | ok parsed => simp [_update, hs, hps]
      rw [hu1]
      rcases hw with h | ⟨src, _, hk, items, hitems, i, hi, hkind, d, hd, hval⟩
      · exact Or.inl h
      · subst hk
        exact Or.inr ⟨src.title, items, hitems, i, hi, hkind, d, hd, hval⟩

/-- One persisted sync run, seen from one source's checkpoint: it is either
untouched or advances, along `R`, to a truthy id listed above the old
cursor. -/
theorem run_checkpoint_step {R : PyVal → PyVal → Prop} (env : Env π)
    (prov : SourcesMap) (conf : String) (sid : PyVal)
    (hcr : CursorRespects R env) (hwf : DetailsWellformed env)
    (htr : pvTruthy (providerCheckpoint prov sid) = true) :
    providerCheckpoint (mergeUpd prov (_update env prov [] conf).1) sid =
        providerCheckpoint prov sid ∨
      (R (providerCheckpoint prov sid)
          (providerCheckpoint (mergeUpd prov (_update env prov [] conf).1) sid) ∧
        pvTruthy
          (providerCheckpoint (mergeUpd prov (_update env prov [] conf).1) sid) =
          true) := by
  have hnodup : NodupKeys (_update env prov [] conf).1 :=
    nodupKeys_update env prov [] conf List.nodup_nil
  have hmerge :=
    mapGet_mergeUpd (_update env prov [] conf).1 prov sid hnodup
  rcases update_writes env prov [] conf sid with h | ⟨title, items, hitems, i,
      hi, hkind, d, hd, hval⟩
  · left
    rw [mapGet] at h
    unfold providerCheckpoint
    rw [hmerge, h]
  · right
    obtain ⟨ee, dd, hdd, hitemsrev⟩ :=
      fetch_items_ok_inv env sid (providerCheckpoint prov sid) items hitems
    have hparam : itemsRequestParam (providerCheckpoint prov sid) =
        some (providerCheckpoint prov sid) := by
      unfold itemsRequestParam
      rw [htr]
      simp
    rw [hparam] at hdd
    have hmem : i ∈ dd.items := by
      rw [hitemsrev] at hi
      exact List.mem_reverse.mp hi
    obtain ⟨hR, htruthy⟩ := hcr sid (providerCheckpoint prov sid) ee dd hdd i hmem
    obtain ⟨ee2, dd2, hdd2, hdet⟩ := fetch_item_details_ok_inv env sid i.id d hd
    have hid : d.detail.id = i.id := by
      rw [hdet]
      exact hwf sid i.id ee2 dd2 hdd2
    have hcp : providerCheckpoint (mergeUpd prov (_update env prov [] conf).1) sid =
        d.detail.id := by
      unfold providerCheckpoint
      rw [hmerge, hval]
    rw [hcp, hid]
    exact ⟨hR, htruthy⟩

/-- Iterated persisted runs never regress a truthy checkpoint: across any
sequence of cursor-respecting, well-formed runs it stays equal or strictly
advances along a transitive `R`, staying truthy. -/
theorem runMany_checkpoint_mono {R : PyVal → PyVal → Prop} (hR : Transitive R)
    (conf : String) (sid : PyVal) :
    ∀ (envs : List (Env π)) (prov : SourcesMap),
      (∀ e ∈ envs, CursorRespects R e ∧ DetailsWellformed e) →
      pvTruthy (providerCheckpoint prov sid) = true →
      providerCheckpoint (runMany conf prov envs) sid =
          providerCheckpoint prov sid ∨
        (R (providerCheckpoint prov sid)
            (providerCheckpoint (runMany conf prov envs) sid) ∧
          pvTruthy (providerCheckpoint (runMany conf prov envs) sid) = true) := by
  intro envs
  induction envs with
  | nil => intro prov _ _; exact Or.inl rfl
  | cons e rest ih =>
      intro prov hres htr
      have he := hres e (List.mem_cons_self e rest)
      have hrest : ∀ x ∈ rest, CursorRespects R x ∧ DetailsWellformed x :=
        fun x hx => hres x (List.mem_cons_of_mem e hx)
      have hstep := run_checkpoint_step e prov conf sid he.1 he.2 htr
      have hrw : runMany conf prov (e :: rest) =
          runMany conf (mergeUpd prov (_update e prov [] conf).1) rest := rfl
      rcases hstep with heq | ⟨hlt, htr1⟩
      · have hih := ih (mergeUpd prov (_update e prov [] conf).1) hrest
          (by rw [heq]; exact htr)
        rw [hrw]
        rcases hih with h1 | ⟨h1, h2⟩
        · left
          rw [h1, heq]
        · right
          rw [heq] at h1
          exact ⟨h1, h2⟩
      · have hih := ih (mergeUpd prov (_update e prov [] conf).1) hrest htr1
        rw [hrw]
        rcases hih with h1 | ⟨h1, h2⟩
        · right
          rw [h1]
          exact ⟨hlt, htr1⟩
        · right
          exact ⟨hR hlt h1, h2⟩

end ANPNewsApiFeedingService

/-! Claim theorems. -/

namespace ANPNewsApiFeedingService

/-- Claim C1: during a sync run the in-memory checkpoint entry of a source is
updated to the processed item's id immediately per item — right after the
item loop consumes an item, the entry holds that item's id — and only items
of an allowed kind are detailed and write checkpoints.  In the end-to-end
scenario (checkpoint 100, listing 103/102/101 with 102 a `PHOTO` whose detail
endpoint would fail the run if it were ever fetched), the run succeeds and
the final checkpoint of the source is 103. -/
theorem anp_c1_checkpoint_per_item :
    (∀ (π : Type) (env : Env π) (src : Source) (upd : SourcesMap)
        (acc : List π) (l₁ : List ItemRef) (i : ItemRef) (l₂ : List ItemRef),
        (∀ j ∈ l₁, FetchOk env src j) → FetchOkWf env src i →
        processItems env src (l₁ ++ i :: l₂) upd acc =
          processItems env src l₂ (updAfter env src upd (l₁ ++ [i]))
            (acc ++ parsedAcc env src (l₁ ++ [i])) ∧
        mapGet (updAfter env src upd (l₁ ++ [i])) src.id =
          some ⟨src.title, i.id⟩) ∧
    _update scnEnv scnProvider [] "ANP 101" =
      ([(PyVal.int 1, ⟨"ANP 101", PyVal.int 103⟩)],
        Except.ok [[⟨⟨PyVal.int 101, false⟩, Option.none⟩,
                    ⟨⟨PyVal.int 103, false⟩, Option.none⟩]]) := by
  constructor
  · intro π env src upd acc l₁ i l₂ h1 h2
    obtain ⟨d, hd, hid⟩ := h2
    have h1x : ∀ j ∈ l₁ ++ [i], FetchOk env src j := by
      intro j hj
      rcases List.mem_append.mp hj with hj | hj
      · exact h1 j hj
      · rw [List.mem_singleton] at hj
        subst hj
        exact ⟨d, hd⟩
    constructor
    · have hsplit : l₁ ++ i :: l₂ = (l₁ ++ [i]) ++ l₂ := by simp
      rw [hsplit, processItems_append_ok env src (l₁ ++ [i]) l₂ upd acc h1x]
    · rw [updAfter_snoc env src upd l₁ i d hd, mapGet_mapSet_self, hid]
  · rfl

/-- Witness for C1: in the scenario, right after the first allowed item
(101) is processed the checkpoint entry of source 1 is 101, before 103 is
ever touched. -/
theorem anp_c1_checkpoint_per_item_witness :
    mapGet (updAfter scnEnv scnSource []
        ([] ++ [⟨PyVal.int 101, "TEXTARTICLE"⟩])) scnSource.id =
      some ⟨"ANP 101", PyVal.int 101⟩ :=
  (anp_c1_checkpoint_per_item.1 ResolvedItem scnEnv scnSource [] []
    [] ⟨PyVal.int 101, "TEXTARTICLE"⟩ [⟨PyVal.int 103, "TEXTARTICLE"⟩]
    (by intro j hj; exact absurd hj (List.not_mem_nil j))
    ⟨⟨⟨PyVal.int 101, false⟩, Option.none⟩, rfl, rfl⟩).2

/-- Counterexample to claim C2: in the failing run of `failEnv` (101
resolves, then 103's detail fetch raises), the raised error carries the
partially advanced checkpoint map (101 was recorded), but the run returns
no item sequence at all — the items resolved before the failure are *not*
returned before the error is raised; the local `parsed_items` list of the
Python `_update` is lost when the exception propagates. -/
theorem anp_c2_resolved_items_dropped :
    (_update failEnv [] [] "ANP 101").1 =
      [(PyVal.int 1, ⟨"ANP 101", PyVal.int 101⟩)] ∧
    (_update failEnv [] [] "ANP 101").2 =
      Except.error (IngestError.transport "boom") ∧
    (_update failEnv [] [] "ANP 101").2.toOption = Option.none :=
  ⟨rfl, rfl, rfl⟩

/-- Claim C2 (amended): if a detail fetch fails mid-run, the run surfaces
that error and the in-place-mutated `update` map keeps exactly the
checkpoints advanced for the items resolved before the failure point (so
the next run resumes after the last success), but the already-resolved
items themselves are not returned by the failing run. -/
theorem anp_c2_failed_run_keeps_checkpoints :
    ∀ (π : Type) (env : Env π) (prov upd : SourcesMap) (conf : String)
      (src : Source) (items l₁ : List ItemRef) (item : ItemRef)
      (l₂ : List ItemRef) (e : IngestError),
      _fetch_sources env conf = Except.ok [src] →
      _fetch_items env src.id (providerCheckpoint prov src.id) =
        Except.ok items →
      items.filter (fun i => decide (i.kind ∈ ALLOWED_ITEM_KINDS)) =
        l₁ ++ item :: l₂ →
      (∀ j ∈ l₁, FetchOk env src j) →
      _fetch_item_details env src.id item.id = Except.error e →
      _update env prov upd conf = (updAfter env src upd l₁, Except.error e) := by
  intro π env prov upd conf src items l₁ item l₂ e hs hitems hfilter h1 herr
  have hpi : processItems env src (l₁ ++ item :: l₂) upd [] =
      (updAfter env src upd l₁, Except.error e) :=
    processItems_error_at env src l₁ item l₂ upd [] e h1 herr
  have hps : processSource env prov src upd ([] : List π) =
      (updAfter env src upd l₁, Except.error e) := by
    simp [processSource, hitems, hfilter, hpi]
  have hsingle := processSources_single env prov src upd ([] : List π)
  simp [_update, hs, hsingle, hps]

/-- Witness for the amended C2 at the concrete failing run. -/
theorem anp_c2_failed_run_keeps_checkpoints_witness :
    _update failEnv [] [] "ANP 101" =
      (updAfter failEnv scnSource [] [⟨PyVal.int 101, "TEXTARTICLE"⟩],
        Except.error (IngestError.transport "boom")) :=
  anp_c2_failed_run_keeps_checkpoints ResolvedItem failEnv [] [] "ANP 101"
    scnSource
    [⟨PyVal.int 101, "TEXTARTICLE"⟩, ⟨PyVal.int 103, "TEXTARTICLE"⟩]
    [⟨PyVal.int 101, "TEXTARTICLE"⟩] ⟨PyVal.int 103, "TEXTARTICLE"⟩ []
    (IngestError.transport "boom") rfl rfl rfl
    (by
      intro j hj
      rw [List.mem_singleton] at hj
      subst hj
      exact ⟨⟨⟨PyVal.int 101, false⟩, Option.none⟩, rfl⟩)
    rfl

end ANPNewsApiFeedingService

namespace ANPNewsApiFeedingService

/-- Counterexample to claim C3: a catalog title that differs from an
allow-list entry only by surrounding whitespace.  Both sides normalise to
`"anp"` under the claim's lower-case-and-trim rule, so the claim says the
source is kept; the code lower-cases but does not trim the catalog title,
so the source is dropped. -/
theorem anp_c3_title_not_trimmed :
    pyStrip (pyLower " anp") = pyStrip (pyLower "anp") ∧
    specFilterSources [⟨PyVal.int 1, " anp"⟩] ["anp"] =
      [⟨PyVal.int 1, " anp"⟩] ∧
    filterSources [⟨PyVal.int 1, " anp"⟩] ["anp"] = [] := by
  refine ⟨by decide, by decide, by decide⟩

/-- Claim C3 (amended): the source filter outputs exactly those catalog
sources whose lower-cased (but *not* trimmed) title equals some lower-cased
and trimmed allow-list entry, preserving catalog order; an empty allow-list
yields an empty result; and `_fetch_sources` applies this filter to the
fetched catalog with the comma-split configured titles. -/
theorem anp_c3_source_filter :
    (∀ (srcs : List Source) (confTitles : List String),
      (filterSources srcs confTitles).Sublist srcs ∧
      (∀ s, s ∈ filterSources srcs confTitles ↔
        s ∈ srcs ∧ pyLower s.title ∈ confTitles.map normConfTitle) ∧
      filterSources srcs [] = []) ∧
    (∀ (π : Type) (env : Env π) (conf : String) (ee : ErrorEnvelope)
        (srcs : List Source),
      env.sources = FetchResult.response false ee srcs →
      _fetch_sources env conf =
        Except.ok (filterSources srcs (pySplitComma conf))) := by
  constructor
  · intro srcs confTitles
    refine ⟨List.filter_sublist srcs, ?_, ?_⟩
    · intro s
      rw [filterSources, List.mem_filter, decide_eq_true_eq]
    · simp [filterSources]
  · intro π env conf ee srcs h
    unfold _fetch_sources
    rw [h]
    simp [get_url]

/-- Witness for the amended C3: the scenario source catalog filtered by the
configured title `"ANP 101"` keeps the source, and membership matches the
characterisation. -/
theorem anp_c3_source_filter_witness :
    _fetch_sources scnEnv "ANP 101" =
      Except.ok (filterSources [scnSource] (pySplitComma "ANP 101")) ∧
    (scnSource ∈ filterSources [scnSource] (pySplitComma "ANP 101") ↔
      scnSource ∈ [scnSource] ∧
      pyLower scnSource.title ∈ (pySplitComma "ANP 101").map normConfTitle) :=
  ⟨anp_c3_source_filter.2 ResolvedItem scnEnv "ANP 101" okEnvelope [scnSource]
      rfl,
    (anp_c3_source_filter.1 [scnSource] (pySplitComma "ANP 101")).2.1 scnSource⟩

/-- Claim C4: a fetched body with `hasError` set makes `get_url` raise the
typed `apiGeneralError` whose message embeds the upstream `errorCode` and
`description` (concretely `E1` / `boom`), returns no data, and the item
loop stops at such an error with the checkpoint map left at its last
successful state. -/
theorem anp_c4_api_error_envelope :
    (∀ (α : Type) (url : String) (ee : ErrorEnvelope) (d : α),
      get_url url (FetchResult.response true ee d) =
        Except.error (IngestError.apiGeneralError (apiErrorMsg url ee)) ∧
      ∀ x : α, get_url url (FetchResult.response true ee d) ≠ Except.ok x) ∧
    (∀ (url : String) (ee : ErrorEnvelope), ∃ s1 s2 s3,
      apiErrorMsg url ee = s1 ++ ee.errorCode ++ s2 ++ ee.description ++ s3) ∧
    apiErrorMsg "u" ⟨"E1", "boom"⟩ =
      "Error in GET: \x27u\x27. ErrorCode: \x27E1\x27. Description: \x27boom\x27" ∧
    (∀ (π : Type) (env : Env π) (src : Source) (item : ItemRef)
        (rest : List ItemRef) (upd : SourcesMap) (acc : List π)
        (e : IngestError),
      _fetch_item_details env src.id item.id = Except.error e →
      processItems env src (item :: rest) upd acc = (upd, Except.error e)) := by
  refine ⟨?_, ?_, rfl, ?_⟩
  · intro α url ee d
    refine ⟨rfl, ?_⟩
    intro x h
    exact Except.noConfusion h
  · intro url ee
    exact ⟨"Error in GET: \x27" ++ url ++ "\x27. ErrorCode: \x27",
      "\x27. Description: \x27", "\x27", rfl⟩
  · intro π env src item rest upd acc e h
    simp [processItems, h]

/-- Witness for C4 at the concrete envelope `{errorCode: E1, description:
boom}`. -/
theorem anp_c4_api_error_envelope_witness :
    get_url "u" (FetchResult.response true ⟨"E1", "boom"⟩ (⟨[]⟩ : ItemsData)) =
      Except.error (IngestError.apiGeneralError (apiErrorMsg "u" ⟨"E1", "boom"⟩)) :=
  (anp_c4_api_error_envelope.1 ItemsData "u" ⟨"E1", "boom"⟩ ⟨[]⟩).1

/-- Claim C5: `_fetch_items` returns exactly the reverse of a successful
upstream listing — same elements, nothing added, removed or filtered. -/
theorem anp_c5_items_reversed :
    ∀ (π : Type) (env : Env π) (sid c : PyVal) (ee : ErrorEnvelope)
      (d : ItemsData),
      env.items sid (itemsRequestParam c) = FetchResult.response false ee d →
      _fetch_items env sid c = Except.ok d.items.reverse ∧
      d.items.reverse.reverse = d.items ∧
      List.Perm d.items.reverse d.items := by
  intro π env sid c ee d h
  refine ⟨?_, List.reverse_reverse d.items, List.reverse_perm d.items⟩
  unfold _fetch_items
  rw [h]
  simp [get_url]

/-- Witness for C5 at the scenario listing `[103, 102, 101]`. -/
theorem anp_c5_items_reversed_witness :
    _fetch_items scnEnv (PyVal.int 1) (PyVal.int 100) =
      Except.ok [⟨PyVal.int 101, "TEXTARTICLE"⟩, ⟨PyVal.int 102, "PHOTO"⟩,
        ⟨PyVal.int 103, "TEXTARTICLE"⟩] :=
  (anp_c5_items_reversed ResolvedItem scnEnv (PyVal.int 1) (PyVal.int 100)
    okEnvelope
    ⟨[⟨PyVal.int 103, "TEXTARTICLE"⟩, ⟨PyVal.int 102, "PHOTO"⟩,
      ⟨PyVal.int 101, "TEXTARTICLE"⟩]⟩ rfl).1

end ANPNewsApiFeedingService

namespace ANPNewsApiFeedingService

/-- Claim C6: the resolver selects the first rendition whose kind and mime
type are both allowed; a truthy id yields the deterministic media URL, a
missing id yields none (not an error), no match across the list yields
none; and on the two-rendition scenario list it returns the link carrying
id 42. -/
theorem anp_c6_media_first_match :
    (∀ (sid iid : PyVal) (rends : List Rendition),
      mediaLinkScan sid iid rends =
        Option.bind (rends.find? renditionMatches) (fun r =>
          if pvTruthy r.id then
            some (HTTP_ITEM_MEDIA_DETAILS_URL sid iid r.id)
          else Option.none)) ∧
    (∀ (π : Type) (env : Env π) (sid iid : PyVal) (ee : ErrorEnvelope)
        (rends : List Rendition),
      env.mediaList sid iid = FetchResult.response false ee rends →
      _fetch_media_link env sid iid = Except.ok (mediaLinkScan sid iid rends)) ∧
    mediaLinkScan (PyVal.int 1) (PyVal.int 7)
        [⟨some "imgSmall", Option.none, PyVal.none⟩,
         ⟨some "imgMid", some "image/jpeg", PyVal.int 42⟩] =
      some "https://newsapi.anp.nl/services/sources/1/items/7/media/42" := by
  refine ⟨?_, ?_, rfl⟩
  · intro sid iid rends
    induction rends with
    | nil => rfl
    | cons r rest ih =>
        cases hr : renditionMatches r with
        | true =>
            rw [List.find?_cons_of_pos _ hr]
            simp [mediaLinkScan, hr]
        | false =>
            rw [List.find?_cons_of_neg _ (by simp [hr])]
            simp [mediaLinkScan, hr, ih]
  · intro π env sid iid ee rends h
    unfold _fetch_media_link
    rw [h]
    simp [get_url]

/-- Witness for C6 at the two-rendition scenario list served by `rendEnv`. -/
theorem anp_c6_media_first_match_witness :
    _fetch_media_link rendEnv (PyVal.int 1) (PyVal.int 7) =
      Except.ok (mediaLinkScan (PyVal.int 1) (PyVal.int 7)
        [⟨some "imgSmall", Option.none, PyVal.none⟩,
         ⟨some "imgMid", some "image/jpeg", PyVal.int 42⟩]) :=
  anp_c6_media_first_match.2.1 ResolvedItem rendEnv (PyVal.int 1) (PyVal.int 7)
    okEnvelope
    [⟨some "imgSmall", Option.none, PyVal.none⟩,
     ⟨some "imgMid", some "image/jpeg", PyVal.int 42⟩] rfl

/-- Claim C7: the detail fetcher consults the media resolver only when the
payload has `hasMedia` — with `hasMedia` false the result is the bare
detail whatever the media endpoint would do — and a resolver returning
none leaves the detail without a media link, raising no error. -/
theorem anp_c7_detail_media_tolerance :
    (∀ (π : Type) (env : Env π) (sid iid : PyVal) (ee : ErrorEnvelope)
        (d : ItemDetail),
      env.itemDetails sid iid = FetchResult.response false ee d →
      d.hasMedia = false →
      _fetch_item_details env sid iid = Except.ok ⟨d, Option.none⟩) ∧
    (∀ (π : Type) (env : Env π) (sid iid : PyVal) (ee : ErrorEnvelope)
        (d : ItemDetail),
      env.itemDetails sid iid = FetchResult.response false ee d →
      d.hasMedia = true →
      _fetch_media_link env sid iid = Except.ok Option.none →
      _fetch_item_details env sid iid = Except.ok ⟨d, Option.none⟩) := by
  constructor
  · intro π env sid iid ee d h hm
    unfold _fetch_item_details
    rw [h]
    simp [get_url, hm]
  · intro π env sid iid ee d h hm hml
    unfold _fetch_item_details
    rw [h]
    simp [get_url, hm, hml]

/-- Witness for C7: `idleEnv` has `hasMedia` false and a media endpoint that
would raise, yet the detail comes back clean; `noMatchEnv` has `hasMedia`
true with no matching rendition, and the detail comes back without a link. -/
theorem anp_c7_detail_media_tolerance_witness :
    _fetch_item_details idleEnv (PyVal.int 1) (PyVal.int 5) =
      Except.ok ⟨⟨PyVal.int 5, false⟩, Option.none⟩ ∧
    _fetch_item_details noMatchEnv (PyVal.int 1) (PyVal.int 5) =
      Except.ok ⟨⟨PyVal.int 5, true⟩, Option.none⟩ :=
  ⟨anp_c7_detail_media_tolerance.1 ResolvedItem idleEnv (PyVal.int 1)
      (PyVal.int 5) okEnvelope ⟨PyVal.int 5, false⟩ rfl rfl,
    anp_c7_detail_media_tolerance.2 ResolvedItem noMatchEnv (PyVal.int 1)
      (PyVal.int 5) okEnvelope ⟨PyVal.int 5, true⟩ rfl rfl rfl⟩

/-- Claim C9: a run in which every filtered source lists no new items
returns an empty item sequence and leaves the update checkpoint map exactly
as it was passed in. -/
theorem anp_c9_no_new_items_idempotent :
    ∀ (π : Type) (env : Env π) (prov upd : SourcesMap) (conf : String)
      (srcs : List Source),
      _fetch_sources env conf = Except.ok srcs →
      (∀ src ∈ srcs,
        _fetch_items env src.id (providerCheckpoint prov src.id) =
          Except.ok []) →
      _update env prov upd conf = (upd, Except.ok [[]]) := by
  intro π env prov upd conf srcs hs hempty
  have h := processSources_no_items env prov srcs hempty upd []
  simp [_update, hs, h]

/-- Witness for C9: the quiet environment over the scenario provider. -/
theorem anp_c9_no_new_items_idempotent_witness :
    _update idleEnv scnProvider [] "ANP 101" = ([], Except.ok [[]]) :=
  anp_c9_no_new_items_idempotent ResolvedItem idleEnv scnProvider [] "ANP 101"
    [scnSource] rfl
    (by
      intro src hs
      rw [List.mem_singleton] at hs
      subst hs
      rfl)

/-- Claim C10: the `toItem` request parameter is sent iff the stored
checkpoint is truthy; `None`, `0` and the empty string each send no cursor,
and then the request is exactly the one made with no stored checkpoint. -/
theorem anp_c10_cursor_iff_truthy :
    (∀ c : PyVal, itemsRequestParam c = some c ↔ pvTruthy c = true) ∧
    (itemsRequestParam PyVal.none = Option.none ∧
      itemsRequestParam (PyVal.int 0) = Option.none ∧
      itemsRequestParam (PyVal.str "") = Option.none) ∧
    (∀ (π : Type) (env : Env π) (sid c : PyVal),
      pvTruthy c = false →
      _fetch_items env sid c = _fetch_items env sid PyVal.none) := by
  refine ⟨?_, ⟨rfl, rfl, rfl⟩, ?_⟩
  · intro c
    unfold itemsRequestParam
    cases h : pvTruthy c with
    | true => simp
    | false => simp
  · intro π env sid c h
    unfold _fetch_items itemsRequestParam
    rw [h]
    simp [pvTruthy]

/-- Witness for C10: a truthy cursor (7) is sent, and a zero checkpoint
fetches like a never-synced source. -/
theorem anp_c10_cursor_iff_truthy_witness :
    itemsRequestParam (PyVal.int 7) = some (PyVal.int 7) ∧
    _fetch_items idleEnv (PyVal.int 1) (PyVal.int 0) =
      _fetch_items idleEnv (PyVal.int 1) PyVal.none :=
  ⟨(anp_c10_cursor_iff_truthy.1 (PyVal.int 7)).mpr rfl,
    anp_c10_cursor_iff_truthy.2.2 ResolvedItem idleEnv (PyVal.int 1)
      (PyVal.int 0) rfl⟩

end ANPNewsApiFeedingService

namespace ANPNewsApiFeedingService

/-- The strict int order on `PyVal` is transitive. -/
theorem pvIntLt_trans : Transitive (fun a b => pvIntLt a b = true) := by
  intro a b c hab hbc
  cases a <;> cases b <;> cases c <;> simp_all [pvIntLt]
  omega

/-- Claim C8: after a fully successful pass over a source the checkpoint
entry is the id of the last resolved (allowed, well-formed) item; a source
with no allowed item leaves the map untouched; and across any sequence of
persisted runs against cursor-respecting, well-formed upstreams, a truthy
stored checkpoint never regresses: it stays equal or strictly advances
along the (transitive) listing order, remaining truthy. -/
theorem anp_c8_checkpoint_monotone :
    (∀ (π : Type) (env : Env π) (prov : SourcesMap) (src : Source)
        (upd : SourcesMap) (acc : List π) (items l₁ : List ItemRef)
        (ilast : ItemRef),
      _fetch_items env src.id (providerCheckpoint prov src.id) =
        Except.ok items →
      items.filter (fun i => decide (i.kind ∈ ALLOWED_ITEM_KINDS)) =
        l₁ ++ [ilast] →
      (∀ j ∈ l₁ ++ [ilast], FetchOkWf env src j) →
      mapGet (processSource env prov src upd acc).1 src.id =
        some ⟨src.title, ilast.id⟩) ∧
    (∀ (π : Type) (env : Env π) (prov : SourcesMap) (src : Source)
        (upd : SourcesMap) (acc : List π) (items : List ItemRef),
      _fetch_items env src.id (providerCheckpoint prov src.id) =
        Except.ok items →
      items.filter (fun i => decide (i.kind ∈ ALLOWED_ITEM_KINDS)) = [] →
      processSource env prov src upd acc = (upd, Except.ok acc)) ∧
    (∀ (π : Type) (R : PyVal → PyVal → Prop), Transitive R →
      ∀ (conf : String) (sid : PyVal) (envs : List (Env π))
        (prov : SourcesMap),
        (∀ e ∈ envs, CursorRespects R e ∧ DetailsWellformed e) →
        pvTruthy (providerCheckpoint prov sid) = true →
        providerCheckpoint (runMany conf prov envs) sid =
            providerCheckpoint prov sid ∨
          (R (providerCheckpoint prov sid)
              (providerCheckpoint (runMany conf prov envs) sid) ∧
            pvTruthy (providerCheckpoint (runMany conf prov envs) sid) =
              true)) := by
  refine ⟨?_, ?_, ?_⟩
  · intro π env prov src upd acc items l₁ ilast hitems hfilter hok
    have hok1 : ∀ j ∈ l₁ ++ [ilast], FetchOk env src j := by
      intro j hj
      obtain ⟨d, hd, _⟩ := hok j hj
      exact ⟨d, hd⟩
    obtain ⟨d, hd, hid⟩ := hok ilast (by simp)
    have hps : processSource env prov src upd acc =
        processItems env src (l₁ ++ [ilast]) upd acc := by
      simp [processSource, hitems, hfilter]
    have hfin : mapGet (mapSet (updAfter env src upd l₁) src.id
        ⟨src.title, d.detail.id⟩) src.id = some ⟨src.title, d.detail.id⟩ :=
      mapGet_mapSet_self _ _ _
    calc mapGet (processSource env prov src upd acc).1 src.id
        = mapGet (updAfter env src upd (l₁ ++ [ilast])) src.id := by
          rw [hps, processItems_ok env src (l₁ ++ [ilast]) upd acc hok1]
      _ = some ⟨src.title, ilast.id⟩ := by
          rw [updAfter_snoc env src upd l₁ ilast d hd, hfin, hid]
  · intro π env prov src upd acc items hitems hfilter
    have hps : processSource env prov src upd acc =
        processItems env src
          (items.filter (fun i => decide (i.kind ∈ ALLOWED_ITEM_KINDS)))
          upd acc := by
      simp [processSource, hitems]
    rw [hps, hfilter]
    rfl
  · intro π R hR conf sid envs prov hres htr
    exact runMany_checkpoint_mono hR conf sid envs prov hres htr

/-- Witness for C8: one quiet run over the scenario provider under the
strict int order; the stored checkpoint 100 of source 1 is unchanged. -/
theorem anp_c8_checkpoint_monotone_witness :
    providerCheckpoint (runMany "ANP 101" scnProvider [idleEnv])
        (PyVal.int 1) = providerCheckpoint scnProvider (PyVal.int 1) ∨
      ((fun a b => pvIntLt a b = true)
          (providerCheckpoint scnProvider (PyVal.int 1))
          (providerCheckpoint (runMany "ANP 101" scnProvider [idleEnv])
            (PyVal.int 1)) ∧
        pvTruthy (providerCheckpoint (runMany "ANP 101" scnProvider [idleEnv])
          (PyVal.int 1)) = true) :=
  anp_c8_checkpoint_monotone.2.2 ResolvedItem (fun a b => pvIntLt a b = true)
    pvIntLt_trans "ANP 101" (PyVal.int 1) [idleEnv] scnProvider
    (by
      intro e he
      rw [List.mem_singleton] at he
      subst he
      constructor
      · intro sid c ee d hd i hi
        have hd1 : FetchResult.response false okEnvelope (⟨[]⟩ : ItemsData) =
            FetchResult.response false ee d := hd
        injection hd1 with h1 h2 h3
        subst h3
        exact absurd hi (List.not_mem_nil i)
      · intro sid iid ee d hd
        have hd1 : FetchResult.response false okEnvelope
            (⟨iid, false⟩ : ItemDetail) = FetchResult.response false ee d := hd
        injection hd1 with h1 h2 h3
        rw [← h3])
    rfl

end ANPNewsApiFeedingService
